import Mathlib

/-!
Shallow embedding of the unart bit-banging UART engines (unart.h,
unart_rx.c, unart_tx.c).  Timer-driven state machines are modelled as
explicit state-passing functions; the kernel kfifo byte queues are
modelled as bounded lists; u8 arithmetic is Nat with explicit % 256.
-/

namespace Unart

/-- NSEC_PER_SEC from linux/ktime.h, used by both set_baud_rate functions. -/
def NSEC_PER_SEC : Nat := 1000000000

/-- UNART_RX_FIFO_SIZE from unart.h. -/
def UNART_RX_FIFO_SIZE : Nat := 32

/-- UNART_TX_FIFO_SIZE from unart.h. -/
def UNART_TX_FIFO_SIZE : Nat := 1024

/-- Bit period in ns: NSEC_PER_SEC / baudrate (truncating unsigned division),
from unart_rx_set_baud_rate / unart_tx_set_baud_rate. -/
def period (baudrate : Nat) : Nat := NSEC_PER_SEC / baudrate

/-- RX sample skew in ns: rx->period * rx->skew_percent / 100,
from unart_rx_set_baud_rate. -/
def skew (baudrate skew_percent : Nat) : Nat :=
  period baudrate * skew_percent / 100

/-- clamp(rx->skew_percent, 0u, 100u) from unart_rx_setup (Nat is already >= 0). -/
def clampSkewPercent (p : Nat) : Nat := min p 100

/-- unart_rx_set_baud_rate's division, with the zero divisor made explicit:
C unsigned division by zero is undefined, so the embedding guards it. -/
def unart_rx_set_baud_rate_checked (baudrate : Nat) : Option Nat :=
  if baudrate = 0 then none else some (NSEC_PER_SEC / baudrate)

/-- unart_tx_set_baud_rate's division, guarded the same way. -/
def unart_tx_set_baud_rate_checked (baudrate : Nat) : Option Nat :=
  if baudrate = 0 then none else some (NSEC_PER_SEC / baudrate)

/-- kfifo_put: append one element if the fifo has room, else drop it.
Returns the new fifo and whether the element was stored. -/
def kfifo_put (cap : Nat) (fifo : List Nat) (b : Nat) : List Nat × Bool :=
  if fifo.length < cap then (fifo ++ [b], true) else (fifo, false)

/-- kfifo_in: append as many buffer elements as fit; return new fifo and count. -/
def kfifo_in (cap : Nat) (fifo buf : List Nat) : List Nat × Nat :=
  let n := min buf.length (cap - fifo.length)
  (fifo ++ buf.take n, n)

/-- kfifo_get: remove the oldest element, if any. -/
def kfifo_get (fifo : List Nat) : Option (Nat × List Nat) :=
  match fifo with
  | [] => none
  | b :: rest => some (b, rest)

/-- kfifo_out: remove up to n oldest elements; return them and the rest. -/
def kfifo_out (fifo : List Nat) (n : Nat) : List Nat × List Nat :=
  (fifo.take n, fifo.drop n)

/-- Numeric value of a sampled line level (gpiod_get_raw_value yields 0 or 1). -/
def bitVal (b : Bool) : Nat := if b then 1 else 0

/-- RX engine state (struct unart_rx's protocol-relevant fields, plus the
timer's armed flag and absolute deadline, the pending push_work flag, and the
TX line level that diagnostic mode drives). -/
structure RxState where
  bit_index : Int
  payload : Nat
  fifo : List Nat
  push_scheduled : Bool
  timer_active : Bool
  timer_deadline : Nat
  debug_toggle : Nat
  tx_line : Nat
  deriving DecidableEq

/-- unart_rx_debug_toggle: flip rx->debug_toggle and drive the TX gpio to it. -/
def unart_rx_debug_toggle (s : RxState) : RxState :=
  let t := s.debug_toggle ^^^ 1
  { s with debug_toggle := t, tx_line := t }

/-- unart_rx_irq_handler: on a falling edge, ignore it if a byte is being
read (bit_index != -1 or timer active); otherwise reset payload, arm the
timer for now + skew, and in diagnostic mode toggle the TX line. -/
def unart_rx_irq_handler (rx_debug : Bool) (skewNs now : Nat)
    (s : RxState) : RxState :=
  if s.bit_index ≠ -1 ∨ s.timer_active then s
  else
    let s1 := { s with payload := 0, timer_active := true,
                       timer_deadline := now + skewNs }
    if rx_debug then unart_rx_debug_toggle s1 else s1

/-- unart_rx_timer_callback, given the sampled line level.  Models
HRTIMER_NORESTART as timer_active := false and hrtimer_forward_now(period)
as advancing the deadline by one period. -/
def unart_rx_timer_callback (rx_debug : Bool) (periodNs : Nat) (bit : Bool)
    (s : RxState) : RxState :=
  let s1 := if rx_debug then unart_rx_debug_toggle s else s
  if s1.bit_index = -1 then
    if bit ≠ false then
      { s1 with timer_active := false }
    else
      { s1 with bit_index := s1.bit_index + 1,
                timer_deadline := s1.timer_deadline + periodNs }
  else if s1.bit_index < 8 then
    { s1 with payload := ((bitVal bit <<< 7) ||| (s1.payload >>> 1)) % 256,
              bit_index := s1.bit_index + 1,
              timer_deadline := s1.timer_deadline + periodNs }
  else
    let s2 :=
      if bit then
        { s1 with fifo := (kfifo_put UNART_RX_FIFO_SIZE s1.fifo s1.payload).1,
                  push_scheduled := true }
      else s1
    { s2 with bit_index := -1, timer_active := false }

/-- unart_rx_push_work: kfifo_out into a 32-byte local buffer, then forward
the removed bytes to the push callback.  Returns the new state and the
byte run handed to the callback. -/
def unart_rx_push_work (s : RxState) : RxState × List Nat :=
  let r := kfifo_out s.fifo UNART_RX_FIFO_SIZE
  ({ s with fifo := r.2, push_scheduled := false }, r.1)

/-- RX state as set up by unart_rx_setup (bit_index = -1, debug_toggle = 0,
empty fifo, timer idle; tx line idles high). -/
def rxInit : RxState :=
  { bit_index := -1, payload := 0, fifo := [], push_scheduled := false,
    timer_active := false, timer_deadline := 0, debug_toggle := 0,
    tx_line := 1 }

/-- TX engine state (struct unart_tx's protocol-relevant fields plus timer
flag/deadline, the driven line level, and the pending wakeup_work flag). -/
structure TxState where
  bit_index : Int
  payload : Nat
  fifo : List Nat
  timer_active : Bool
  timer_deadline : Nat
  line : Nat
  wakeup_scheduled : Bool
  deriving DecidableEq

/-- unart_tx_timer_callback: emit start bit, data bits LSB-first, stop bit;
at the stop bit fetch the next byte or stop the timer and schedule wakeup. -/
def unart_tx_timer_callback (periodNs : Nat) (s : TxState) : TxState :=
  if s.bit_index = -1 then
    { s with line := 0, bit_index := 0,
             timer_deadline := s.timer_deadline + periodNs }
  else if s.bit_index < 8 then
    { s with line := s.payload % 2, payload := s.payload / 2,
             bit_index := s.bit_index + 1,
             timer_deadline := s.timer_deadline + periodNs }
  else
    let s1 := { s with line := 1, bit_index := -1 }
    match s1.fifo with
    | [] => { s1 with wakeup_scheduled := true, timer_active := false }
    | b :: rest =>
      { s1 with payload := b, fifo := rest,
                timer_deadline := s1.timer_deadline + periodNs }

/-- unart_tx_write: diagnostic short-circuit returns count untouched;
otherwise kfifo_in, then if the timer is idle and a byte can be fetched,
load it and arm the timer for now + period.  Returns new state and the
accepted count. -/
def unart_tx_write (rx_debug : Bool) (periodNs now : Nat) (buf : List Nat)
    (s : TxState) : TxState × Nat :=
  if rx_debug then (s, buf.length)
  else
    let r := kfifo_in UNART_TX_FIFO_SIZE s.fifo buf
    let s1 := { s with fifo := r.1 }
    if s1.timer_active then (s1, r.2)
    else
      match s1.fifo with
      | [] => (s1, r.2)
      | b :: rest =>
        ({ s1 with payload := b, fifo := rest, bit_index := -1,
                   timer_active := true, timer_deadline := now + periodNs },
         r.2)

/-- unart_tx_write_room: kfifo_avail. -/
def unart_tx_write_room (s : TxState) : Nat :=
  UNART_TX_FIFO_SIZE - s.fifo.length

/-- TX state as set up by unart_tx_setup (empty fifo, idle timer, line
idles high per GPIOD_OUT_HIGH). -/
def txInit : TxState :=
  { bit_index := -1, payload := 0, fifo := [], timer_active := false,
    timer_deadline := 0, line := 1, wakeup_scheduled := false }

/-- Run up to n TX timer-callback firings, collecting (deadline, driven
line level) per firing; stops when the timer is no longer armed. -/
def txRun (n : Nat) (periodNs : Nat) (s : TxState) :
    TxState × List (Nat × Nat) :=
  match n with
  | 0 => (s, [])
  | Nat.succ m =>
    if s.timer_active then
      let s1 := unart_tx_timer_callback periodNs s
      let r := txRun m periodNs s1
      (r.1, (s.timer_deadline, s1.line) :: r.2)
    else (s, [])

/-- Run the RX timer callback over a list of sampled line levels,
stopping as soon as the timer is disarmed. -/
def rxRun (rx_debug : Bool) (periodNs : Nat) (bits : List Bool)
    (s : RxState) : RxState :=
  match bits with
  | [] => s
  | bit :: rest =>
    if s.timer_active then
      rxRun rx_debug periodNs rest (unart_rx_timer_callback rx_debug periodNs bit s)
    else s

/-- The 10 line levels of a well-formed frame carrying byte b:
start bit 0, b's 8 bits LSB-first, stop bit 1. -/
def frameBits (b : Nat) : List Bool :=
  false :: (List.range 8).map (fun i => b.testBit i) ++ [true]

/-- The payload accumulator after shifting in a list of sampled data bits,
mirroring the data-bit branch of unart_rx_timer_callback. -/
def shiftInBits (bits : List Bool) (p : Nat) : Nat :=
  match bits with
  | [] => p
  | bit :: rest => shiftInBits rest (((bitVal bit <<< 7) ||| (p >>> 1)) % 256)

/-- An externally triggered RX event: a falling edge at some absolute time,
or a timer firing that samples the given line level. -/
inductive RxEvent where
  | edge (now : Nat)
  | tick (bit : Bool)
  deriving DecidableEq

/-- RX state instrumented with frame history: whether a start edge has been
accepted, whether the stop-bit sample of that frame has occurred, and
whether the frame has terminated for any reason (invalid start-bit sample
or stop-bit sample, valid or not). -/
structure RxInstr where
  st : RxState
  edge_detected : Bool
  stop_sampled : Bool
  terminated : Bool
  deriving DecidableEq

/-- Initial instrumented state: engine as set up, no frame history. -/
def instrInit : RxInstr :=
  { st := rxInit, edge_detected := false, stop_sampled := false,
    terminated := false }

/-- One instrumented step: the engine state evolves by the corresponding
handler; the history flags record accepted edges, stop-bit samples
(a timer firing with bit_index outside [-1, 8)), and frame termination
(stop-bit sample, or start-bit sample that reads 1).  A tick with the
timer idle does nothing: an unarmed timer never fires. -/
def instrStep (dbg : Bool) (sk p : Nat) (i : RxInstr) (e : RxEvent) : RxInstr :=
  match e with
  | .edge now =>
    if i.st.bit_index ≠ -1 ∨ i.st.timer_active then
      { i with st := unart_rx_irq_handler dbg sk now i.st }
    else
      { st := unart_rx_irq_handler dbg sk now i.st,
        edge_detected := true, stop_sampled := false, terminated := false }
  | .tick bit =>
    if i.st.timer_active then
      { st := unart_rx_timer_callback dbg p bit i.st,
        edge_detected := i.edge_detected,
        stop_sampled :=
          if ¬ i.st.bit_index = -1 ∧ ¬ i.st.bit_index < 8 then true
          else i.stop_sampled,
        terminated :=
          if (¬ i.st.bit_index = -1 ∧ ¬ i.st.bit_index < 8) ∨
             (i.st.bit_index = -1 ∧ bit = true) then true
          else i.terminated }
    else i

/-- Run the instrumented RX engine over a list of events. -/
def instrExec (dbg : Bool) (sk p : Nat) (i : RxInstr) : List RxEvent → RxInstr
  | [] => i
  | e :: es => instrExec dbg sk p (instrStep dbg sk p i e) es

/-- Reachability invariant of the instrumented RX engine: the timer is armed
exactly when an accepted start edge's frame has not yet terminated, the
engine is at bit_index -1 whenever the timer is idle, and bit_index stays
in [-1, 8]. -/
def RxInv (i : RxInstr) : Prop :=
  i.st.timer_active = (i.edge_detected && !i.terminated) ∧
  (i.st.timer_active = false → i.st.bit_index = -1) ∧
  -1 ≤ i.st.bit_index ∧ i.st.bit_index ≤ 8

/-! Theorems. -/

/-- C5 counterexample: at the clamped skew_percent 100 (allowed by
unart_rx_setup's clamp) and baud rate 9600, the computed skew equals the
period, so skew < period fails. -/
theorem skew_lt_period_cex :
    clampSkewPercent 100 = 100 ∧
    ¬ skew 9600 (clampSkewPercent 100) < period 9600 := by
  decide

/-- C5 (amended): for baud rate B >= 1 and skew_percent in [0,100],
period(B) = 10^9 / B by truncating division, skew(B) = period(B) *
skew_percent / 100, and 0 <= skew(B) <= period(B); the inequality is
strict whenever skew_percent <= 99 and period(B) >= 1. -/
theorem skew_le_period (B sp : Nat) (hB : 1 ≤ B) (hsp : sp ≤ 100) :
    period B = 10 ^ 9 / B ∧ skew B sp = period B * sp / 100 ∧
    skew B sp ≤ period B ∧
    (sp ≤ 99 → 1 ≤ period B → skew B sp < period B) := by
  refine ⟨by norm_num [period, NSEC_PER_SEC], rfl, ?_, ?_⟩
  · have h := Nat.mul_le_mul_left (period B) hsp
    simp only [skew]
    omega
  · intro h99 hpos
    have h := Nat.mul_le_mul_left (period B) h99
    simp only [skew]
    omega

/-- C5 witness: the spec's scenario, baud 9600 with skew_percent 30. -/
theorem skew_le_period_witness :
    skew 9600 30 ≤ period 9600 ∧ skew 9600 30 < period 9600 :=
  ⟨(skew_le_period 9600 30 (by decide) (by decide)).2.2.1,
   (skew_le_period 9600 30 (by decide) (by decide)).2.2.2
     (by decide) (by decide)⟩

/-- C9: both set_baud_rate operations divide NSEC_PER_SEC by the baud rate
with no zero guard in the source; for every baudrate >= 1 the division is
well defined (the guarded error branch of the embedding is not taken),
while baudrate = 0 reaches the division-by-zero branch. -/
theorem set_baud_rate_division_guard (b : Nat) :
    (1 ≤ b →
      unart_rx_set_baud_rate_checked b = some (NSEC_PER_SEC / b) ∧
      unart_tx_set_baud_rate_checked b = some (NSEC_PER_SEC / b)) ∧
    (b = 0 →
      unart_rx_set_baud_rate_checked b = none ∧
      unart_tx_set_baud_rate_checked b = none) := by
  constructor
  · intro h
    have hne : ¬ b = 0 := by omega
    simp [unart_rx_set_baud_rate_checked, unart_tx_set_baud_rate_checked, hne]
  · intro h
    subst h
    simp [unart_rx_set_baud_rate_checked, unart_tx_set_baud_rate_checked]

/-- C9 witness: baudrate 9600 divides fine, baudrate 0 hits the zero branch. -/
theorem set_baud_rate_division_guard_witness :
    unart_rx_set_baud_rate_checked 9600 = some (NSEC_PER_SEC / 9600) ∧
    unart_rx_set_baud_rate_checked 0 = none :=
  ⟨((set_baud_rate_division_guard 9600).1 (by decide)).1,
   ((set_baud_rate_division_guard 0).2 rfl).1⟩

/-- C10: one invocation of unart_rx_push_work removes every byte present in
the RX byte queue (its local buffer capacity equals the queue capacity 32),
leaves the queue empty, and forwards exactly the removed bytes in FIFO
order. -/
theorem rx_push_work_drains_all (s : RxState)
    (h : s.fifo.length ≤ UNART_RX_FIFO_SIZE) :
    (unart_rx_push_work s).2 = s.fifo ∧
    (unart_rx_push_work s).1.fifo = [] ∧
    (unart_rx_push_work s).1.push_scheduled = false := by
  unfold unart_rx_push_work kfifo_out
  refine ⟨List.take_of_length_le h, ?_, rfl⟩
  simp [List.drop_eq_nil_of_le h]

/-- C10 witness: a queue holding 1, 2, 3 is drained in order and emptied. -/
theorem rx_push_work_drains_all_witness :
    (unart_rx_push_work { rxInit with fifo := [1, 2, 3] }).2 = [1, 2, 3] ∧
    (unart_rx_push_work { rxInit with fifo := [1, 2, 3] }).1.fifo = [] ∧
    (unart_rx_push_work { rxInit with fifo := [1, 2, 3] }).1.push_scheduled
      = false :=
  rx_push_work_drains_all { rxInit with fifo := [1, 2, 3] } (by decide)

/-- C6: while a frame is in progress (bit_index != -1 or the RX timer
armed), the edge-interrupt handler leaves the whole RX state unchanged. -/
theorem rx_irq_ignored_during_frame (dbg : Bool) (sk now : Nat) (s : RxState)
    (h : s.bit_index ≠ -1 ∨ s.timer_active = true) :
    unart_rx_irq_handler dbg sk now s = s := by
  unfold unart_rx_irq_handler
  rw [if_pos]
  simpa using h

/-- C6 witness: an edge arriving while bit_index = 3 is ignored. -/
theorem rx_irq_ignored_during_frame_witness :
    unart_rx_irq_handler false 31249 5 { rxInit with bit_index := 3 } =
      { rxInit with bit_index := 3 } :=
  rx_irq_ignored_during_frame false 31249 5 { rxInit with bit_index := 3 }
    (Or.inl (by decide))


/-- Unrolling txRun: an armed timer fires once and the run continues. -/
theorem txRun_step (m p : Nat) (s : TxState) (h : s.timer_active = true) :
    txRun (m + 1) p s =
      ((txRun m p (unart_tx_timer_callback p s)).1,
       (s.timer_deadline, (unart_tx_timer_callback p s).line) ::
         (txRun m p (unart_tx_timer_callback p s)).2) := by
  simp [txRun, h]

/-- Unrolling txRun: a disarmed timer never fires. -/
theorem txRun_idle (m p : Nat) (s : TxState) (h : s.timer_active = false) :
    txRun (m + 1) p s = (s, []) := by
  simp [txRun, h]

/-- Writing 0x41 to an idle empty TX engine loads 0x41 into payload,
arms the timer for now + period, and reports 1 byte accepted. -/
theorem tx_write_41 (now p : Nat) :
    unart_tx_write false p now [0x41] txInit =
      (⟨-1, 65, [], true, now + p, 1, false⟩, 1) := by
  simp [unart_tx_write, txInit, kfifo_in, UNART_TX_FIFO_SIZE]

/-- TX timer-callback step 0 of the 0x41 frame. -/
theorem txStep41_0 (now p : Nat) : unart_tx_timer_callback p ⟨-1, 65, [], true, now + p, 1, false⟩ = ⟨0, 65, [], true, now + p + p, 0, false⟩ := by
  simp [unart_tx_timer_callback]

/-- TX timer-callback step 1 of the 0x41 frame. -/
theorem txStep41_1 (now p : Nat) : unart_tx_timer_callback p ⟨0, 65, [], true, now + p + p, 0, false⟩ = ⟨1, 32, [], true, now + p + p + p, 1, false⟩ := by
  simp [unart_tx_timer_callback]

/-- TX timer-callback step 2 of the 0x41 frame. -/
theorem txStep41_2 (now p : Nat) : unart_tx_timer_callback p ⟨1, 32, [], true, now + p + p + p, 1, false⟩ = ⟨2, 16, [], true, now + p + p + p + p, 0, false⟩ := by
  simp [unart_tx_timer_callback]

/-- TX timer-callback step 3 of the 0x41 frame. -/
theorem txStep41_3 (now p : Nat) : unart_tx_timer_callback p ⟨2, 16, [], true, now + p + p + p + p, 0, false⟩ = ⟨3, 8, [], true, now + p + p + p + p + p, 0, false⟩ := by
  simp [unart_tx_timer_callback]

/-- TX timer-callback step 4 of the 0x41 frame. -/
theorem txStep41_4 (now p : Nat) : unart_tx_timer_callback p ⟨3, 8, [], true, now + p + p + p + p + p, 0, false⟩ = ⟨4, 4, [], true, now + p + p + p + p + p + p, 0, false⟩ := by
  simp [unart_tx_timer_callback]

/-- TX timer-callback step 5 of the 0x41 frame. -/
theorem txStep41_5 (now p : Nat) : unart_tx_timer_callback p ⟨4, 4, [], true, now + p + p + p + p + p + p, 0, false⟩ = ⟨5, 2, [], true, now + p + p + p + p + p + p + p, 0, false⟩ := by
  simp [unart_tx_timer_callback]

/-- TX timer-callback step 6 of the 0x41 frame. -/
theorem txStep41_6 (now p : Nat) : unart_tx_timer_callback p ⟨5, 2, [], true, now + p + p + p + p + p + p + p, 0, false⟩ = ⟨6, 1, [], true, now + p + p + p + p + p + p + p + p, 0, false⟩ := by
  simp [unart_tx_timer_callback]

/-- TX timer-callback step 7 of the 0x41 frame. -/
theorem txStep41_7 (now p : Nat) : unart_tx_timer_callback p ⟨6, 1, [], true, now + p + p + p + p + p + p + p + p, 0, false⟩ = ⟨7, 0, [], true, now + p + p + p + p + p + p + p + p + p, 1, false⟩ := by
  simp [unart_tx_timer_callback]

/-- TX timer-callback step 8 of the 0x41 frame. -/
theorem txStep41_8 (now p : Nat) : unart_tx_timer_callback p ⟨7, 0, [], true, now + p + p + p + p + p + p + p + p + p, 1, false⟩ = ⟨8, 0, [], true, now + p + p + p + p + p + p + p + p + p + p, 0, false⟩ := by
  simp [unart_tx_timer_callback]

/-- TX timer-callback step 9 of the 0x41 frame. -/
theorem txStep41_9 (now p : Nat) : unart_tx_timer_callback p ⟨8, 0, [], true, now + p + p + p + p + p + p + p + p + p + p, 0, false⟩ = ⟨-1, 0, [], false, now + p + p + p + p + p + p + p + p + p + p, 1, true⟩ := by
  simp [unart_tx_timer_callback]

set_option maxRecDepth 10000 in
/-- C4 counterexample: claim says any write of N bytes against free
capacity F < N leaves the TX queue full.  With the timer idle and the
queue empty, writing 1025 bytes has F = 1024 < N and accepts (returns)
1024, but the queue then holds 1023 bytes, not 1024: the write path
immediately dequeues one accepted byte into payload when arming the
idle timer. -/
theorem tx_write_leaves_queue_full_cex :
    (unart_tx_write false 104166 0 (List.replicate 1025 7) txInit).2 = 1024 ∧
    ¬ (unart_tx_write false 104166 0 (List.replicate 1025 7) txInit).1.fifo.length
        = UNART_TX_FIFO_SIZE := by
  constructor
  · simp [unart_tx_write, txInit, kfifo_in, UNART_TX_FIFO_SIZE]
  · simp [unart_tx_write, txInit, kfifo_in, UNART_TX_FIFO_SIZE,
      List.take_replicate, List.replicate_succ]

/-- C4 (amended): for any buffer of N bytes and TX queue with free capacity
F < N (diagnostic mode off), unart_tx_write accepts exactly F bytes and
returns F without blocking or failing; the queue is left full when the TX
timer was active, while with the timer idle one accepted byte is
immediately dequeued into payload (leaving occupancy capacity - 1) and the
timer is armed. -/
theorem tx_write_truncates_and_arms (p now : Nat) (buf : List Nat)
    (s : TxState) (hcap : s.fifo.length ≤ UNART_TX_FIFO_SIZE)
    (hF : UNART_TX_FIFO_SIZE - s.fifo.length < buf.length) :
    (unart_tx_write false p now buf s).2 = UNART_TX_FIFO_SIZE - s.fifo.length ∧
    (s.timer_active = true →
      (unart_tx_write false p now buf s).1.fifo =
        s.fifo ++ buf.take (UNART_TX_FIFO_SIZE - s.fifo.length) ∧
      (unart_tx_write false p now buf s).1.fifo.length = UNART_TX_FIFO_SIZE) ∧
    (s.timer_active = false →
      (unart_tx_write false p now buf s).1.fifo.length
        = UNART_TX_FIFO_SIZE - 1 ∧
      (unart_tx_write false p now buf s).1.timer_active = true) := by
  obtain ⟨bi, pl, ff, ta, td, ln, wk⟩ := s
  simp only [UNART_TX_FIFO_SIZE] at hcap hF
  have hmin : min buf.length (1024 - ff.length) = 1024 - ff.length :=
    Nat.min_eq_right (Nat.le_of_lt hF)
  have hlen : (ff ++ buf.take (1024 - ff.length)).length = 1024 := by
    simp [List.length_take, hmin]
    omega
  rcases ta with _ | _
  · rcases hf : ff ++ buf.take (1024 - ff.length) with _ | ⟨b, rest⟩
    · exfalso
      rw [hf] at hlen
      simp at hlen
    · have hrest : rest.length = 1023 := by
        rw [hf] at hlen
        simp at hlen
        omega
      simp [unart_tx_write, kfifo_in, UNART_TX_FIFO_SIZE, hmin, hf, hrest]
  · simp [unart_tx_write, kfifo_in, UNART_TX_FIFO_SIZE, hmin, hlen]

set_option maxRecDepth 10000 in
/-- C4 witness: truncated write of 1025 bytes into the idle empty engine. -/
theorem tx_write_truncates_and_arms_witness :
    (unart_tx_write false 104166 0 (List.replicate 1025 7) txInit).2 =
      UNART_TX_FIFO_SIZE - txInit.fifo.length ∧
    (unart_tx_write false 104166 0 (List.replicate 1025 7) txInit).1.fifo.length
      = UNART_TX_FIFO_SIZE - 1 :=
  ⟨(tx_write_truncates_and_arms 104166 0 (List.replicate 1025 7) txInit
      (by simp [txInit, UNART_TX_FIFO_SIZE])
      (by simp [txInit, UNART_TX_FIFO_SIZE])).1,
   ((tx_write_truncates_and_arms 104166 0 (List.replicate 1025 7) txInit
      (by simp [txInit, UNART_TX_FIFO_SIZE])
      (by simp [txInit, UNART_TX_FIFO_SIZE])).2.2 rfl).1⟩

/-- C8: with the global rx_debug flag enabled, every unart_tx_write call
returns its full count and leaves the whole TX state (queue and timer)
unchanged, and every RX timer-callback sample toggles the TX output line
exactly once: debug_toggle flips and the line is driven to the new value. -/
theorem debug_mode_discards_tx_and_toggles_line (p now q : Nat)
    (buf : List Nat) (t : TxState) (bit : Bool) (s : RxState) :
    unart_tx_write true p now buf t = (t, buf.length) ∧
    (unart_rx_timer_callback true q bit s).debug_toggle = s.debug_toggle ^^^ 1 ∧
    (unart_rx_timer_callback true q bit s).tx_line = s.debug_toggle ^^^ 1 := by
  obtain ⟨bi, pl, ff, ps, ta, td, dt, tl⟩ := s
  refine ⟨rfl, ?_, ?_⟩ <;>
  · rcases bit <;> by_cases h1 : bi = (-1 : Int) <;> by_cases h2 : bi < (8 : Int) <;>
      simp [unart_rx_timer_callback, unart_rx_debug_toggle, h1, h2]

/-- C2: writing the single byte 0x41 with the TX queue empty and the timer
idle (diagnostic mode off) accepts 1 byte, arms the timer for now + one
period, and the subsequent timer callbacks drive the line to
0,1,0,0,0,0,0,1,0,1 (start, 0x41 LSB-first, stop) at consecutive period
boundaries now + k * period for k = 1..10, after which the timer stops. -/
theorem tx_write_0x41_emits_frame (now p : Nat) :
    (unart_tx_write false p now [0x41] txInit).2 = 1 ∧
    (unart_tx_write false p now [0x41] txInit).1.timer_active = true ∧
    (unart_tx_write false p now [0x41] txInit).1.timer_deadline = now + p ∧
    (txRun 11 p (unart_tx_write false p now [0x41] txInit).1).2.map Prod.snd =
      [0, 1, 0, 0, 0, 0, 0, 1, 0, 1] ∧
    (txRun 11 p (unart_tx_write false p now [0x41] txInit).1).2.map Prod.fst =
      [now + 1 * p, now + 2 * p, now + 3 * p, now + 4 * p, now + 5 * p,
       now + 6 * p, now + 7 * p, now + 8 * p, now + 9 * p, now + 10 * p] ∧
    (txRun 11 p (unart_tx_write false p now [0x41] txInit).1).1.timer_active
      = false := by
  have h0 : (unart_tx_write false p now [0x41] txInit).1 =
      (⟨-1, 65, [], true, now + p, 1, false⟩ : TxState) := by rw [tx_write_41]
  have h2 : (unart_tx_write false p now [0x41] txInit).2 = 1 := by
    rw [tx_write_41]
  have hrun : txRun 11 p (⟨-1, 65, [], true, now + p, 1, false⟩ : TxState) =
      (⟨-1, 0, [], false, now + p + p + p + p + p + p + p + p + p + p, 1, true⟩,
       [(now + p, 0), (now + p + p, 1), (now + p + p + p, 0),
        (now + p + p + p + p, 0), (now + p + p + p + p + p, 0),
        (now + p + p + p + p + p + p, 0), (now + p + p + p + p + p + p + p, 0),
        (now + p + p + p + p + p + p + p + p, 1),
        (now + p + p + p + p + p + p + p + p + p, 0),
        (now + p + p + p + p + p + p + p + p + p + p, 1)]) := by
    rw [show (11 : Nat) = 10 + 1 from rfl, txRun_step _ _ _ rfl, txStep41_0]
    rw [show (10 : Nat) = 9 + 1 from rfl, txRun_step _ _ _ rfl, txStep41_1]
    rw [show (9 : Nat) = 8 + 1 from rfl, txRun_step _ _ _ rfl, txStep41_2]
    rw [show (8 : Nat) = 7 + 1 from rfl, txRun_step _ _ _ rfl, txStep41_3]
    rw [show (7 : Nat) = 6 + 1 from rfl, txRun_step _ _ _ rfl, txStep41_4]
    rw [show (6 : Nat) = 5 + 1 from rfl, txRun_step _ _ _ rfl, txStep41_5]
    rw [show (5 : Nat) = 4 + 1 from rfl, txRun_step _ _ _ rfl, txStep41_6]
    rw [show (4 : Nat) = 3 + 1 from rfl, txRun_step _ _ _ rfl, txStep41_7]
    rw [show (3 : Nat) = 2 + 1 from rfl, txRun_step _ _ _ rfl, txStep41_8]
    rw [show (2 : Nat) = 1 + 1 from rfl, txRun_step _ _ _ rfl, txStep41_9]
    rw [show (1 : Nat) = 0 + 1 from rfl, txRun_idle _ _ _ rfl]
  refine ⟨h2, by rw [h0], by rw [h0], ?_, ?_, ?_⟩
  · rw [h0, hrun]
    rfl
  · rw [h0, hrun]
    simp only [List.map_cons, List.map_nil, List.cons.injEq, and_true]
    omega
  · rw [h0, hrun]


/-- Running the RX timer callback over concatenated sample lists composes. -/
theorem rxRun_append (dbg : Bool) (p : Nat) (l1 l2 : List Bool) (s : RxState) :
    rxRun dbg p (l1 ++ l2) s = rxRun dbg p l2 (rxRun dbg p l1 s) := by
  induction l1 generalizing s with
  | nil => simp [rxRun]
  | cons bit rest ih =>
    by_cases h : s.timer_active = true
    · simp only [List.cons_append, rxRun, h, if_true]
      exact ih _
    · have h2 : s.timer_active = false := by
        simpa using h
      cases l2 with
      | nil => simp [rxRun, h2]
      | cons b2 r2 => simp [rxRun, h2]

/-- Data-bit phase of the RX timer callback: while 0 <= bit_index and
bit_index + remaining samples <= 8, each sample is shifted into the high
bit of payload (prior contents shifted right), bit_index advances once per
sample, and the timer stays armed, re-armed one period later each time. -/
theorem rxRun_data (p : Nat) (bits : List Bool) (s : RxState)
    (ht : s.timer_active = true) (h0 : 0 ≤ s.bit_index)
    (h8 : s.bit_index + bits.length ≤ 8) :
    rxRun false p bits s =
      { s with payload := shiftInBits bits s.payload,
               bit_index := s.bit_index + bits.length,
               timer_deadline := s.timer_deadline + bits.length * p } := by
  induction bits generalizing s with
  | nil => simp [rxRun, shiftInBits]
  | cons bit rest ih =>
    obtain ⟨bi, pl, ff, ps, ta, td, dt, tl⟩ := s
    simp only at ht h0 h8 ⊢
    subst ht
    simp only [List.length_cons] at h8
    have hne : ¬ bi = -1 := by omega
    have hlt : bi < 8 := by omega
    have hcb : unart_rx_timer_callback false p bit
        (⟨bi, pl, ff, ps, true, td, dt, tl⟩ : RxState) =
        ⟨bi + 1, ((bitVal bit <<< 7) ||| (pl >>> 1)) % 256, ff, ps, true,
         td + p, dt, tl⟩ := by
      simp [unart_rx_timer_callback, hne, hlt]
    rw [show rxRun false p (bit :: rest)
          (⟨bi, pl, ff, ps, true, td, dt, tl⟩ : RxState) =
        rxRun false p rest (unart_rx_timer_callback false p bit
          ⟨bi, pl, ff, ps, true, td, dt, tl⟩) from by simp [rxRun]]
    rw [hcb]
    rw [ih _ rfl (by simp only; omega) (by simp only; omega)]
    simp only [RxState.mk.injEq, List.length_cons, shiftInBits]
    refine ⟨by omega, trivial, trivial, trivial, trivial, by ring, trivial,
      trivial⟩

set_option maxRecDepth 10000 in
/-- Shifting in a byte's 8 bits LSB-first reconstructs the byte (Fin form). -/
theorem shiftInBits_testBits_fin : ∀ b : Fin 256,
    shiftInBits ((List.range 8).map (fun i => Nat.testBit b.val i)) 0 = b.val := by
  decide

/-- Shifting in b's 8 bits LSB-first reconstructs b for any byte b. -/
theorem shiftInBits_testBits (b : Nat) (hb : b < 256) :
    shiftInBits ((List.range 8).map (fun i => b.testBit i)) 0 = b :=
  shiftInBits_testBits_fin ⟨b, hb⟩

/-- Stop-bit sample reading 1 at bit_index 8: payload is appended to the
RX queue, deferred delivery is requested, and the engine returns to idle. -/
theorem rxStop_valid (p pay td dt tl : Nat) (f : List Nat) (ps : Bool)
    (hroom : f.length < UNART_RX_FIFO_SIZE) :
    rxRun false p [true] (⟨8, pay, f, ps, true, td, dt, tl⟩ : RxState) =
      ⟨-1, pay, f ++ [pay], true, false, td, dt, tl⟩ := by
  simp [rxRun, unart_rx_timer_callback, kfifo_put, hroom]

/-- C1: driving the RX engine from idle with a well-formed frame for byte
b (start 0, b's bits LSB-first, stop 1) reconstructs exactly b: the byte is
appended to the RX queue, deferred delivery is requested, and the engine
returns to idle with the timer stopped. -/
theorem rx_frame_delivers_byte (p sk now b : Nat) (f : List Nat)
    (hb : b < 256) (hroom : f.length < UNART_RX_FIFO_SIZE) :
    rxRun false p (frameBits b)
        (unart_rx_irq_handler false sk now { rxInit with fifo := f }) =
      { bit_index := -1, payload := b, fifo := f ++ [b], push_scheduled := true,
        timer_active := false, timer_deadline := now + sk + 9 * p,
        debug_toggle := 0, tx_line := 1 } := by
  have hirq : unart_rx_irq_handler false sk now { rxInit with fifo := f } =
      (⟨-1, 0, f, false, true, now + sk, 0, 1⟩ : RxState) := by
    simp [unart_rx_irq_handler, rxInit]
  rw [hirq]
  rw [show frameBits b =
      false :: ((List.range 8).map (fun i => b.testBit i) ++ [true]) from rfl]
  rw [show rxRun false p
        (false :: ((List.range 8).map (fun i => b.testBit i) ++ [true]))
        (⟨-1, 0, f, false, true, now + sk, 0, 1⟩ : RxState) =
      rxRun false p ((List.range 8).map (fun i => b.testBit i) ++ [true])
        (unart_rx_timer_callback false p false
          ⟨-1, 0, f, false, true, now + sk, 0, 1⟩) from by
    simp [rxRun]]
  have hstart : unart_rx_timer_callback false p false
      (⟨-1, 0, f, false, true, now + sk, 0, 1⟩ : RxState) =
      ⟨0, 0, f, false, true, now + sk + p, 0, 1⟩ := by
    simp [unart_rx_timer_callback]
  rw [hstart, rxRun_append]
  have hdata := rxRun_data p ((List.range 8).map (fun i => b.testBit i))
    (⟨0, 0, f, false, true, now + sk + p, 0, 1⟩ : RxState) rfl (by simp)
    (by simp)
  rw [hdata]
  simp only [List.length_map, List.length_range, Nat.cast_ofNat]
  norm_num
  rw [shiftInBits_testBits b hb]
  rw [rxStop_valid p b (now + sk + p + 8 * p) 0 1 f false hroom]
  simp only [RxState.mk.injEq]
  refine ⟨trivial, trivial, trivial, trivial, trivial, by ring, trivial, trivial⟩

/-- Stop-bit sample reading 0 at bit_index 8: nothing is queued, no
delivery is requested, and the engine returns to idle. -/
theorem rxStop_invalid (p pay td dt tl : Nat) (f : List Nat) (ps : Bool) :
    rxRun false p [false] (⟨8, pay, f, ps, true, td, dt, tl⟩ : RxState) =
      ⟨-1, pay, f, ps, false, td, dt, tl⟩ := by
  simp [rxRun, unart_rx_timer_callback]

/-- C3: a start-bit sample of 1 aborts the frame with no byte queued and
no delivery requested; a frame whose stop-bit sample reads 0 likewise
queues nothing and requests nothing, regardless of the 8 intervening
data-bit samples; in both cases the engine returns to idle (bit_index -1,
timer stopped) without surfacing an error. -/
theorem rx_invalid_bits_no_delivery (p td : Nat) (f : List Nat)
    (d0 d1 d2 d3 d4 d5 d6 d7 : Bool) :
    rxRun false p [true] (⟨-1, 0, f, false, true, td, 0, 1⟩ : RxState) =
      ⟨-1, 0, f, false, false, td, 0, 1⟩ ∧
    rxRun false p (false :: ([d0, d1, d2, d3, d4, d5, d6, d7] ++ [false]))
        (⟨-1, 0, f, false, true, td, 0, 1⟩ : RxState) =
      ⟨-1, shiftInBits [d0, d1, d2, d3, d4, d5, d6, d7] 0, f, false, false,
       td + p + 8 * p, 0, 1⟩ := by
  constructor
  · simp [rxRun, unart_rx_timer_callback]
  · rw [show rxRun false p
          (false :: ([d0, d1, d2, d3, d4, d5, d6, d7] ++ [false]))
          (⟨-1, 0, f, false, true, td, 0, 1⟩ : RxState) =
        rxRun false p ([d0, d1, d2, d3, d4, d5, d6, d7] ++ [false])
          (unart_rx_timer_callback false p false
            ⟨-1, 0, f, false, true, td, 0, 1⟩) from by
      simp [rxRun]]
    have hstart : unart_rx_timer_callback false p false
        (⟨-1, 0, f, false, true, td, 0, 1⟩ : RxState) =
        ⟨0, 0, f, false, true, td + p, 0, 1⟩ := by
      simp [unart_rx_timer_callback]
    rw [hstart, rxRun_append]
    have hdata := rxRun_data p [d0, d1, d2, d3, d4, d5, d6, d7]
      (⟨0, 0, f, false, true, td + p, 0, 1⟩ : RxState) rfl (by simp) (by simp)
    rw [hdata]
    norm_num
    rw [rxStop_invalid p (shiftInBits [d0, d1, d2, d3, d4, d5, d6, d7] 0)
      (td + p + 8 * p) 0 1 f false]

set_option maxRecDepth 8000 in
/-- The RX reachability invariant is preserved by every edge or tick step. -/
theorem RxInv_step (dbg : Bool) (sk p : Nat) (e : RxEvent) (i : RxInstr)
    (h : RxInv i) : RxInv (instrStep dbg sk p i e) := by
  obtain ⟨⟨bi, pl, ff, ps, ta, td, dt, tl⟩, ed, ss, tm⟩ := i
  obtain ⟨h1, h2, h3, h4⟩ := h
  replace h3 : (-1 : Int) ≤ bi := h3
  replace h4 : bi ≤ (8 : Int) := h4
  cases e with
  | edge now =>
    by_cases hc : ¬bi = -1 ∨ ta = true
    · have hstep : instrStep dbg sk p
          ⟨⟨bi, pl, ff, ps, ta, td, dt, tl⟩, ed, ss, tm⟩ (RxEvent.edge now) =
          ⟨⟨bi, pl, ff, ps, ta, td, dt, tl⟩, ed, ss, tm⟩ := by
        simp [instrStep, unart_rx_irq_handler, hc]
      rw [hstep]
      exact ⟨h1, h2, h3, h4⟩
    · push_neg at hc
      obtain ⟨hbi, hta⟩ := hc
      have hta2 : ta = false := by simpa using hta
      subst hbi hta2
      cases dbg <;>
        simp [RxInv, instrStep, unart_rx_irq_handler, unart_rx_debug_toggle]
  | tick bit =>
    rcases ta with _ | _
    · have hstep : instrStep dbg sk p
          ⟨⟨bi, pl, ff, ps, false, td, dt, tl⟩, ed, ss, tm⟩ (RxEvent.tick bit) =
          ⟨⟨bi, pl, ff, ps, false, td, dt, tl⟩, ed, ss, tm⟩ := by
        simp [instrStep]
      rw [hstep]
      exact ⟨h1, h2, h3, h4⟩
    · have hed : ed = true := by
        cases ed
        · simp at h1
        · rfl
      have htm : tm = false := by
        cases tm
        · rfl
        · simp at h1
      subst hed htm
      by_cases hbi : bi = -1
      · subst hbi
        rcases bit with _ | _ <;> cases dbg <;>
          simp [RxInv, instrStep, unart_rx_timer_callback,
            unart_rx_debug_toggle]
      · by_cases hlt : bi < 8
        · cases dbg <;>
            simp [RxInv, instrStep, unart_rx_timer_callback,
              unart_rx_debug_toggle, hbi, hlt] <;>
            omega
        · cases dbg <;> rcases bit with _ | _ <;>
            simp [RxInv, instrStep, unart_rx_timer_callback,
              unart_rx_debug_toggle, hbi, hlt]

/-- The RX reachability invariant is preserved by any event sequence. -/
theorem RxInv_exec (dbg : Bool) (sk p : Nat) (tr : List RxEvent) (i : RxInstr)
    (h : RxInv i) : RxInv (instrExec dbg sk p i tr) := by
  induction tr generalizing i with
  | nil => exact h
  | cons e es ih => exact ih _ (RxInv_step dbg sk p e i h)

/-- The initial instrumented RX state satisfies the invariant. -/
theorem RxInv_init : RxInv instrInit :=
  ⟨rfl, fun _ => rfl, by decide, by decide⟩

/-- C7 (amended): in every state reachable from idle by edge and timer
steps, the RX timer is armed if and only if a start edge has been accepted
and that frame has not yet terminated, where a frame terminates either at
its stop-bit sample (valid or not) or at an invalid start-bit sample. -/
theorem rx_timer_active_iff_frame_unterminated (dbg : Bool) (sk p : Nat)
    (tr : List RxEvent) :
    (instrExec dbg sk p instrInit tr).st.timer_active =
      ((instrExec dbg sk p instrInit tr).edge_detected &&
       !(instrExec dbg sk p instrInit tr).terminated) :=
  (RxInv_exec dbg sk p tr instrInit RxInv_init).1

/-- C7 counterexample: after an accepted edge whose start-bit sample reads
1, a start edge has been detected and no stop-bit sample has occurred, yet
the timer is no longer active - the claimed equivalence fails. -/
theorem rx_timer_active_iff_stop_pending_cex :
    ¬ ((instrExec false 31249 104166 instrInit
          [RxEvent.edge 0, RxEvent.tick true]).st.timer_active =
        ((instrExec false 31249 104166 instrInit
            [RxEvent.edge 0, RxEvent.tick true]).edge_detected &&
         !(instrExec false 31249 104166 instrInit
             [RxEvent.edge 0, RxEvent.tick true]).stop_sampled)) := by
  decide

/-- C1 witness: the spec's scenario byte 0x41 into an empty queue. -/
theorem rx_frame_delivers_byte_witness :
    rxRun false 104166 (frameBits 0x41)
        (unart_rx_irq_handler false 31249 0 { rxInit with fifo := [] }) =
      { bit_index := -1, payload := 0x41, fifo := [0x41],
        push_scheduled := true, timer_active := false,
        timer_deadline := 0 + 31249 + 9 * 104166, debug_toggle := 0,
        tx_line := 1 } := by
  have h := rx_frame_delivers_byte 104166 31249 0 0x41 [] (by decide) (by decide)
  simpa using h

end Unart
